import Mathlib

/-
Shallow embedding of the hive-app authorization / filtering / aggregation core
(`src/routes.ts`, `src/storage.ts`), with theorems checking the specification's
claims against it.

Modelling conventions:
- JavaScript numbers that hold ids or epoch-millisecond timestamps are `Int`.
- `undefined` / `null` / absent object fields are `Option`.
- JS truthiness tests (`if (x)`) are modelled per type: a number is truthy iff
  nonzero, a string iff nonempty, an object (e.g. a `Date`) iff present.
- The server runtime timezone is modelled as UTC, so the local-time `Date`
  accessors (`getDate`, `getDay`, `getFullYear`, `getMonth`) agree with the
  UTC-based `toISOString`.
- Passport guarantees `req.isAuthenticated()` exactly when `req.user` is set,
  so a request is modelled by its optional user.
- Database tables are lists of rows; `returning()` after an update keyed on a
  unique id yields the updated row, or nothing when the id matches no row.
-/

namespace Hive

/-- The three roles of the users table. -/
inductive Role where
  | admin
  | secondary_admin
  | agent
deriving DecidableEq, Repr

/-- The fixed, closed permission vocabulary (shared/schema's Permission). -/
inductive Permission where
  | viewRecords
  | editRecords
  | deleteRecords
  | addRecords
  | exportRecords
  | viewAgents
  | createAgents
  | editAgents
  | manageCustomColumns
  | viewStats
deriving DecidableEq, Repr

/-- ALL_PERMISSIONS from shared/schema: every member of the fixed set. -/
def ALL_PERMISSIONS : List Permission :=
  [Permission.viewRecords, Permission.editRecords, Permission.deleteRecords,
   Permission.addRecords, Permission.exportRecords, Permission.viewAgents,
   Permission.createAgents, Permission.editAgents,
   Permission.manageCustomColumns, Permission.viewStats]

/-- A secondary admin's stored permissions map (jsonb): permission name to
boolean.  Modelled as an association list. -/
def PermissionsMap : Type := List (Permission × Bool)

/-- A row of the users table.  (Fields not consulted by the modelled logic are
elided.) -/
structure User where
  id : Int
  username : String
  password : String
  plainPassword : Option String
  fullName : String
  role : Role
  permissions : Option (List (Permission × Bool))
  isActive : Bool
deriving DecidableEq, Repr

/-- An authenticated request carries its user; `none` models an
unauthenticated request (`req.isAuthenticated()` false, `req.user` unset). -/
structure Request where
  user : Option User
deriving DecidableEq, Repr

/-- req.isAuthenticated(). -/
def isAuthenticated (req : Request) : Bool :=
  req.user.isSome

/-- Key lookup in a permissions map: `perms[p]` on the association list. -/
def permValue : List (Permission × Bool) → Permission → Option Bool
  | [], _ => none
  | (k, b) :: rest, p => if k = p then some b else permValue rest p

/-- The optional-chained read `perms?.[permission]`: `undefined` when the map
itself is null or the key is absent. -/
def permLookup (perms : Option (List (Permission × Bool))) (p : Permission) :
    Option Bool :=
  match perms with
  | none => none
  | some l => permValue l p

/-- routes.ts `hasPermission`: deny unauthenticated; admin always allowed;
secondary_admin allowed iff the stored map binds the permission to true
(`perms?.[permission] === true`); any other role denied. -/
def hasPermission (req : Request) (p : Permission) : Bool :=
  match req.user with
  | none => false
  | some u =>
    if u.role = Role.admin then true
    else if u.role = Role.secondary_admin then
      decide (permLookup u.permissions p = some true)
    else false

/-- routes.ts `isAdmin`: authenticated and `req.user?.role === 'admin'`. -/
def isAdmin (req : Request) : Bool :=
  isAuthenticated req &&
    (match req.user with
     | some u => decide (u.role = Role.admin)
     | none => false)

/-- routes.ts `isAdminOrSecondary`. -/
def isAdminOrSecondary (req : Request) : Bool :=
  isAuthenticated req &&
    (match req.user with
     | some u =>
       decide (u.role = Role.admin) || decide (u.role = Role.secondary_admin)
     | none => false)

/-- The payload of storage.createUser: the fields a create request supplies
(the id is database-assigned; permissions default to absent). -/
structure InsertUser where
  username : String
  password : String
  fullName : String
  role : Role
  isActive : Bool
  permissions : Option (List (Permission × Bool)) := none
deriving DecidableEq, Repr

/-- The payload of storage.updateUser: every field optional; an absent field
is not written by the drizzle `set`. -/
structure UpdateUserRequest where
  username : Option String := none
  password : Option String := none
  fullName : Option String := none
  role : Option Role := none
  isActive : Option Bool := none
  permissions : Option (List (Permission × Bool)) := none
deriving DecidableEq, Repr

/-- JS truthiness of an optional string: present and nonempty. -/
def truthyStr (s : Option String) : Bool :=
  match s with
  | some v => decide (v ≠ "")
  | none => false

/-- JS truthiness of an optional number: present and nonzero. -/
def truthyNum (v : Option Int) : Bool :=
  match v with
  | some n => decide (n ≠ 0)
  | none => false

/-- storage.getUserByUsername: first row with the given username. -/
def getUserByUsername (usersDb : List User) (username : String) : Option User :=
  usersDb.find? (fun u => u.username == username)

/-- storage.getAgents: rows with role agent. -/
def getAgents (usersDb : List User) : List User :=
  usersDb.filter (fun u => decide (u.role = Role.agent))

/-- storage.getSecondaryAdmins: rows with role secondary_admin. -/
def getSecondaryAdmins (usersDb : List User) : List User :=
  usersDb.filter (fun u => decide (u.role = Role.secondary_admin))

/-- storage.createUser: hash the password, insert the row with both the hash
and the verbatim plaintext (`plainPassword`), return the inserted row.  The
hashing collaborator (server/auth.ts, not under the modelled sources) is a
parameter. -/
def createUser (hash : String → String) (newId : Int) (ins : InsertUser) :
    User :=
  { id := newId,
    username := ins.username,
    password := hash ins.password,
    plainPassword := some ins.password,
    fullName := ins.fullName,
    role := ins.role,
    permissions := ins.permissions,
    isActive := ins.isActive }

/-- storage.updateUser applied to one row: when `updates.password` is truthy
(present and nonempty) the update also sets `plainPassword` to the plaintext
and replaces `password` by its hash; a present-but-empty password is written
verbatim and `plainPassword` is left untouched; all other present fields are
written as supplied. -/
def updateUserRow (hash : String → String) (upd : UpdateUserRequest)
    (u : User) : User :=
  let base : User :=
    { u with
      username := upd.username.getD u.username,
      fullName := upd.fullName.getD u.fullName,
      role := upd.role.getD u.role,
      isActive := upd.isActive.getD u.isActive,
      permissions :=
        match upd.permissions with
        | some pm => some pm
        | none => u.permissions }
  match upd.password with
  | none => base
  | some p =>
    if p ≠ "" then { base with password := hash p, plainPassword := some p }
    else { base with password := p }

/-- storage.updateUser: update the row with the given id and return it via
`returning()`; `none` when the id matches no row. -/
def updateUser (hash : String → String) (usersDb : List User) (id : Int)
    (upd : UpdateUserRequest) : Option User :=
  (usersDb.find? (fun u => u.id == id)).map (updateUserRow hash upd)

/-- A row of the records table.  (Fields the modelled logic never consults —
GPS capture, accompanying agents, section, house number, person type, phone —
are elided.) -/
structure RecordItem where
  id : Int
  collectedBy : Int
  recordTitle : String
  landlordName : String
  town : String
  area : String
  customFields : List (String × String)
  isSynced : Bool
  createdAt : Option Int
  updatedAt : Option Int
deriving DecidableEq, Repr

/-- The Zod-parsed create-record input with `collectedBy` omitted (the route
parses `input.omit(collectedBy)`). -/
structure RecordInput where
  recordTitle : String
  landlordName : String
  town : String
  area : String
  customFields : List (String × String) := []
  isSynced : Bool := false
  createdAt : Option Int := none
deriving DecidableEq, Repr

/-- storage.createRecord: insert the row and return it. -/
def createRecord (newId : Int) (collectedBy : Int) (input : RecordInput) :
    RecordItem :=
  { id := newId,
    collectedBy := collectedBy,
    recordTitle := input.recordTitle,
    landlordName := input.landlordName,
    town := input.town,
    area := input.area,
    customFields := input.customFields,
    isSynced := input.isSynced,
    createdAt := input.createdAt,
    updatedAt := none }

/-- The payload of storage.updateRecord: every field optional. -/
structure RecordUpdate where
  collectedBy : Option Int := none
  recordTitle : Option String := none
  landlordName : Option String := none
  town : Option String := none
  area : Option String := none
  customFields : Option (List (String × String)) := none
  isSynced : Option Bool := none
  createdAt : Option Int := none
deriving DecidableEq, Repr

/-- storage.updateRecord applied to one row: present fields are written and
`updatedAt` is set to the current time. -/
def updateRecordRow (upd : RecordUpdate) (now : Int) (r : RecordItem) :
    RecordItem :=
  { r with
    collectedBy := upd.collectedBy.getD r.collectedBy,
    recordTitle := upd.recordTitle.getD r.recordTitle,
    landlordName := upd.landlordName.getD r.landlordName,
    town := upd.town.getD r.town,
    area := upd.area.getD r.area,
    customFields := upd.customFields.getD r.customFields,
    isSynced := upd.isSynced.getD r.isSynced,
    createdAt :=
      match upd.createdAt with
      | some t => some t
      | none => r.createdAt,
    updatedAt := some now }

/-- storage.updateRecord: update the row with the given id and return it via
`returning()`; `none` when the id matches no row. -/
def updateRecord (recordsDb : List RecordItem) (id : Int) (upd : RecordUpdate)
    (now : Int) : Option RecordItem :=
  (recordsDb.find? (fun r => r.id == id)).map (updateRecordRow upd now)

/-- The optional filters of storage.getRecords (dates as epoch ms; a `Date`
object is always truthy, so presence alone enables the date conditions). -/
structure RecordFilters where
  agentId : Option Int := none
  search : Option String := none
  startDate : Option Int := none
  endDate : Option Int := none
  town : Option String := none
  area : Option String := none
deriving DecidableEq, Repr

/-- SQL `field ILIKE '%pat%'`: case-insensitive substring containment
(wildcard characters inside the pattern are not modelled; no claim uses
them). -/
def ilikeContains (field pat : String) : Bool :=
  decide (pat.toLower.toList <:+: field.toLower.toList)

/-- The `eq(collectedBy, agentId)` condition, pushed only when the filter
value is truthy. -/
def condAgentId (f : RecordFilters) (r : RecordItem) : Bool :=
  if truthyNum f.agentId then r.collectedBy == f.agentId.getD 0 else true

/-- The `ilike(landlordName, %search%)` condition (searches the landlord
name only), pushed only when the filter value is truthy. -/
def condSearch (f : RecordFilters) (r : RecordItem) : Bool :=
  if truthyStr f.search then ilikeContains r.landlordName (f.search.getD "")
  else true

/-- The `gte(createdAt, startDate)` condition; a SQL comparison against a
NULL `createdAt` is not true, so such rows are excluded when the filter is
present. -/
def condStartDate (f : RecordFilters) (r : RecordItem) : Bool :=
  match f.startDate with
  | some t =>
    match r.createdAt with
    | some c => decide (t ≤ c)
    | none => false
  | none => true

/-- The `lte(createdAt, endDate)` condition. -/
def condEndDate (f : RecordFilters) (r : RecordItem) : Bool :=
  match f.endDate with
  | some t =>
    match r.createdAt with
    | some c => decide (c ≤ t)
    | none => false
  | none => true

/-- The `ilike(town, %town%)` condition, pushed only when truthy. -/
def condTown (f : RecordFilters) (r : RecordItem) : Bool :=
  if truthyStr f.town then ilikeContains r.town (f.town.getD "") else true

/-- The `ilike(area, %area%)` condition, pushed only when truthy. -/
def condArea (f : RecordFilters) (r : RecordItem) : Bool :=
  if truthyStr f.area then ilikeContains r.area (f.area.getD "") else true

/-- The WHERE clause of storage.getRecords: the conjunction (`and(...)`) of
every pushed condition; with no conditions pushed every row matches. -/
def matchesFilters (f : RecordFilters) (r : RecordItem) : Bool :=
  condAgentId f r && condSearch f r && condStartDate f r && condEndDate f r &&
    condTown f r && condArea f r

/-- The `orderBy(desc(createdAt))` comparison: more recent first; NULL
timestamps first (the Postgres default for descending order). -/
def createdDescLe (a b : RecordItem) : Bool :=
  match a.createdAt, b.createdAt with
  | none, _ => true
  | some _, none => false
  | some x, some y => decide (y ≤ x)

/-- storage.getRecords: filter then order by `createdAt` descending (stable,
so ties keep insertion order; modelled by a stable structural sort). -/
def getRecords (recordsDb : List RecordItem) (f : RecordFilters) :
    List RecordItem :=
  (recordsDb.filter (matchesFilters f)).insertionSort
    (fun a b => createdDescLe a b = true)

/-- The outcome of a route handler: HTTP status plus payload.  `forbidden`
carries the optional JSON message body. -/
inductive RouteResult (α : Type) where
  | unauthorized
  | forbidden (msg : Option String)
  | badRequest (msg : String)
  | notFound (msg : String)
  | ok (status : Nat) (payload : α)
deriving DecidableEq, Repr

/-- A permission-denial outcome (401 or 403), as opposed to success or a
validation / not-found outcome. -/
def isDenied {α : Type} : RouteResult α → Bool
  | RouteResult.unauthorized => true
  | RouteResult.forbidden _ => true
  | _ => false

/-- The raw body of the create-record route: the Zod-parsed input (with
`collectedBy` stripped by `.omit`; `none` models a parse failure → 400) next
to the unvalidated `req.body.collectedBy` number. -/
structure CreateRecordBody where
  rawCollectedBy : Option Int := none
  input : Option RecordInput := none
deriving DecidableEq, Repr

/-- The POST records route: 401 unless authenticated; 403 when the caller is
neither an agent nor a holder of addRecords; otherwise `collectedBy` starts
as the caller's own id and is overridden by a truthy `req.body.collectedBy`
only for admin / secondary_admin callers; the record is inserted and echoed
with status 201. -/
def createRecordRoute (req : Request) (body : CreateRecordBody)
    (newId : Int) : RouteResult RecordItem :=
  match req.user with
  | none => RouteResult.unauthorized
  | some u =>
    if !(decide (u.role = Role.agent)) &&
        !(hasPermission req Permission.addRecords) then
      RouteResult.forbidden (some "No permission to add records")
    else
      match body.input with
      | none => RouteResult.badRequest "invalid input"
      | some input =>
        let collectedBy :=
          if isAdminOrSecondary req && truthyNum body.rawCollectedBy then
            body.rawCollectedBy.getD u.id
          else u.id
        RouteResult.ok 201 (createRecord newId collectedBy input)

/-- The PUT records route: 401 unless authenticated; 403 when the caller
neither holds editRecords nor has role agent; 400 on a parse failure; 404
when the id matches no record; otherwise the updated record. -/
def updateRecordRoute (req : Request) (recordsDb : List RecordItem)
    (id : Int) (body : Option RecordUpdate) (now : Int) :
    RouteResult RecordItem :=
  match req.user with
  | none => RouteResult.unauthorized
  | some u =>
    if !(hasPermission req Permission.editRecords) &&
        !(decide (u.role = Role.agent)) then
      RouteResult.forbidden (some "No permission to edit records")
    else
      match body with
      | none => RouteResult.badRequest "invalid input"
      | some upd =>
        match updateRecord recordsDb id upd now with
        | none => RouteResult.notFound "Record not found"
        | some r => RouteResult.ok 200 r

/-- The PUT agents route: 403 without editAgents; 400 on a parse failure;
otherwise it responds 200 with whatever `storage.updateUser` returned — there
is no not-found check, so a missing id yields `ok` with an empty payload. -/
def updateAgentRoute (hash : String → String) (req : Request)
    (usersDb : List User) (id : Int) (body : Option UpdateUserRequest) :
    RouteResult (Option User) :=
  if !(hasPermission req Permission.editAgents) then RouteResult.forbidden none
  else
    match body with
    | none => RouteResult.badRequest "invalid input"
    | some upd => RouteResult.ok 200 (updateUser hash usersDb id upd)

/-- The GET secondary-admins route: 403 unless `isAdmin`. -/
def listSecondaryAdminsRoute (req : Request) (usersDb : List User) :
    RouteResult (List User) :=
  if !(isAdmin req) then RouteResult.forbidden none
  else RouteResult.ok 200 (getSecondaryAdmins usersDb)

/-- The POST secondary-admins route: 403 unless `isAdmin`; 400 on a parse
failure or a duplicate username; otherwise the user is created with the role
forced to secondary_admin. -/
def createSecondaryAdminRoute (hash : String → String) (req : Request)
    (usersDb : List User) (body : Option InsertUser) (newId : Int) :
    RouteResult User :=
  if !(isAdmin req) then RouteResult.forbidden none
  else
    match body with
    | none => RouteResult.badRequest "invalid input"
    | some input =>
      match getUserByUsername usersDb input.username with
      | some _ => RouteResult.badRequest "Username already exists"
      | none =>
        RouteResult.ok 201
          (createUser hash newId { input with role := Role.secondary_admin })

/-- The PUT secondary-admins route: 403 unless `isAdmin`; 400 on a parse
failure; otherwise 200 with whatever `storage.updateUser` returned. -/
def updateSecondaryAdminRoute (hash : String → String) (req : Request)
    (usersDb : List User) (id : Int) (body : Option UpdateUserRequest) :
    RouteResult (Option User) :=
  if !(isAdmin req) then RouteResult.forbidden none
  else
    match body with
    | none => RouteResult.badRequest "invalid input"
    | some upd => RouteResult.ok 200 (updateUser hash usersDb id upd)

/-- The stats bucketing period. -/
inductive Period where
  | day
  | week
  | month
deriving DecidableEq, Repr

def msPerDay : Int := 86400000

/-- The day index (days since 1970-01-01 UTC) containing an epoch-ms
instant: floor division, as JS `Date` does for negative times too. -/
def msToDay (t : Int) : Int :=
  Int.fdiv t msPerDay

/-- `Date.getDay` of a day index: 0 = Sunday … 6 = Saturday (1970-01-01 was
a Thursday, day 4). -/
def dayOfWeek (day : Int) : Int :=
  Int.emod (day + 4) 7

/-- Proleptic-Gregorian civil date (year, month, day-of-month) of a day
index, by the standard days-from-epoch conversion in floor-division form. -/
def civilFromDays (day : Int) : Int × Int × Int :=
  let z := day + 719468
  let era := Int.fdiv z 146097
  let doe := z - era * 146097
  let yoe :=
    Int.fdiv (doe - Int.fdiv doe 1460 + Int.fdiv doe 36524 -
      Int.fdiv doe 146096) 365
  let y := yoe + era * 400
  let doy := doe - (365 * yoe + Int.fdiv yoe 4 - Int.fdiv yoe 100)
  let mp := Int.fdiv (5 * doy + 2) 153
  let d := doy - Int.fdiv (153 * mp + 2) 5 + 1
  let m := mp + (if mp < 10 then 3 else -9)
  (y + (if m ≤ 2 then 1 else 0), m, d)

/-- Two-digit zero padding of a month or day-of-month number. -/
def pad2 (n : Int) : String :=
  if n < 10 then "0" ++ toString n else toString n

/-- The `toISOString().split('T')[0]` date of a day index, `YYYY-MM-DD`
(years of the application's data are four digits). -/
def isoDateOfDay (day : Int) : String :=
  match civilFromDays day with
  | (y, m, d) => toString y ++ "-" ++ pad2 m ++ "-" ++ pad2 d

/-- The bucket key of getStats for one `createdAt` instant: for week, the
code shifts the date back by its day-of-week (`setDate(getDate() -
getDay())`, landing on the Sunday starting the week) and prefixes "W "; for
month, `getFullYear()-getMonth()+1`; for day, the ISO date. -/
def dateKeyOf (period : Period) (t : Int) : String :=
  match period with
  | Period.week =>
    let day := msToDay t
    "W " ++ isoDateOfDay (day - dayOfWeek day)
  | Period.month =>
    match civilFromDays (msToDay t) with
    | (y, m, _) => toString y ++ "-" ++ pad2 m
  | Period.day => isoDateOfDay (msToDay t)

/-- One step of `counts[k] = (counts[k] || 0) + 1` on an association list:
an existing key is incremented in place, a new key is appended.  (JS object
enumeration reorders integer-like keys ascending on read; no claim depends
on entry order, so insertion order is kept.) -/
def bump {K : Type} [DecidableEq K] (k : K) :
    List (K × Nat) → List (K × Nat)
  | [] => [(k, 1)]
  | (k2, n) :: rest =>
    if k2 = k then (k2, n + 1) :: rest else (k2, n) :: bump k rest

/-- Key lookup in a counts association list (the read `counts[k]`). -/
def lookupCount {K : Type} [DecidableEq K] (k : K) :
    List (K × Nat) → Option Nat
  | [] => none
  | (k2, n) :: rest => if k2 = k then some n else lookupCount k rest

/-- The `agentCounts` accumulation of getStats: one increment per record,
keyed by `collectedBy`. -/
def agentCountsOf (rs : List RecordItem) : List (Int × Nat) :=
  rs.foldl (fun acc r => bump r.collectedBy acc) []

/-- The `dateCounts` accumulation of getStats: one increment per record that
has a `createdAt`, keyed by the period bucket. -/
def dateCountsOf (period : Period) (rs : List RecordItem) :
    List (String × Nat) :=
  rs.foldl
    (fun acc r =>
      match r.createdAt with
      | some t => bump (dateKeyOf period t) acc
      | none => acc) []

/-- The `agentMap` lookup of getStats: the full name of the user with the
given id among the rows with role agent only. -/
def lookupAgentName (agentList : List User) (id : Int) : Option String :=
  (agentList.find? (fun a => a.id == id)).map User.fullName

/-- JS `x || fallback` on an optional string: the fallback replaces both an
absent and an empty (falsy) value. -/
def orFallback (v : Option String) (fallback : String) : String :=
  match v with
  | some s => if s = "" then fallback else s
  | none => fallback

/-- Lexicographic codepoint order on char lists. -/
def charListLe : List Char → List Char → Bool
  | [], _ => true
  | _ :: _, [] => false
  | a :: as, b :: bs =>
    if a.toNat < b.toNat then true
    else if b.toNat < a.toNat then false
    else charListLe as bs

/-- The `localeCompare` sort order of the period bucket keys: lexicographic
by codepoint (the keys are plain ASCII, where the locale order agrees). -/
def strLe (a b : String) : Bool :=
  charListLe a.data b.data

/-- One entry of `recordsPerAgent`. -/
structure AgentStat where
  agentId : Int
  agentName : String
  count : Nat
deriving DecidableEq, Repr

/-- One entry of `recordsByPeriod`. -/
structure PeriodStat where
  date : String
  count : Nat
deriving DecidableEq, Repr

/-- The result shape of storage.getStats. -/
structure StatsResult where
  totalRecords : Nat
  recordsPerAgent : List AgentStat
  recordsByPeriod : List PeriodStat
deriving DecidableEq, Repr

/-- storage.getStats: scan the whole records table (no filters); count per
collecting agent and per period bucket; resolve display names from the
agent-role users, falling back to a synthetic label; sort the period buckets
ascending by key string. -/
def getStats (recordsDb : List RecordItem) (usersDb : List User)
    (period : Period) : StatsResult :=
  let allRecords := recordsDb
  let agentList := usersDb.filter (fun u => decide (u.role = Role.agent))
  { totalRecords := allRecords.length,
    recordsPerAgent :=
      (agentCountsOf allRecords).map (fun e =>
        { agentId := e.1,
          agentName :=
            orFallback (lookupAgentName agentList e.1)
              ("Agent #" ++ toString e.1),
          count := e.2 }),
    recordsByPeriod :=
      ((dateCountsOf period allRecords).map
          (fun e => { date := e.1, count := e.2 : PeriodStat })).insertionSort
        (fun a b => strLe a.date b.date = true) }

/-- The type of an admin-defined custom column. -/
inductive FieldType where
  | text
  | number
  | select
deriving DecidableEq, Repr

/-- A row of the custom_columns table. -/
structure CustomColumn where
  id : Int
  name : String
  fieldType : FieldType
  isRequired : Bool
  options : Option (List String)
  isActive : Bool
deriving DecidableEq, Repr

/-- Value lookup in a record's customFields map. -/
def fieldValue (fieldsMap : List (String × String)) (name : String) :
    Option String :=
  (fieldsMap.find? (fun e => e.1 == name)).map Prod.snd

/-- Modelled from the spec: the Custom Schema Registry's
`validate(fieldsMap, activeColumns)` (§4.5).  The validating input schemas
live in shared/schema.ts, which is not among the provided sources; per the
spec, a select column's present value must belong to its options set and a
missing required column is reported, each violation named by its field.
Unknown keys are non-fatal and text/number columns enforce only type shape,
so neither adds a violation here. -/
def validateCustomFields (fieldsMap : List (String × String))
    (activeColumns : List CustomColumn) : List String :=
  activeColumns.foldr
    (fun c acc =>
      match fieldValue fieldsMap c.name with
      | none => if c.isRequired then c.name :: acc else acc
      | some v =>
        match c.fieldType with
        | FieldType.select =>
          if (c.options.getD []).contains v then acc else c.name :: acc
        | _ => acc) []

/-- A concrete stand-in for the hashing collaborator, used in closed
examples. -/
def hashEx : String → String :=
  fun s => "hashed:" ++ s

/-- A concrete admin user (the seeded account shape). -/
def adminEx : User :=
  { id := 1, username := "admin", password := "hashed:admin123",
    plainPassword := some "admin123", fullName := "System Administrator",
    role := Role.admin, permissions := none, isActive := true }

/-- A concrete secondary admin whose stored map grants every permission. -/
def secAllPerms : User :=
  { id := 2, username := "sec", password := "hashed:pw",
    plainPassword := some "pw", fullName := "Second Admin",
    role := Role.secondary_admin,
    permissions := some (ALL_PERMISSIONS.map (fun p => (p, true))),
    isActive := true }

/-- A concrete agent user. -/
def agentEx : User :=
  { id := 3, username := "agent1", password := "hashed:password",
    plainPassword := some "password", fullName := "John Doe",
    role := Role.agent, permissions := none, isActive := true }

/-- A concrete parsed create-record input. -/
def inputEx : RecordInput :=
  { recordTitle := "Survey", landlordName := "Landlord", town := "Town",
    area := "Area" }

/-- A concrete create-user payload. -/
def insEx : InsertUser :=
  { username := "agent9", password := "pw1", fullName := "Agent Nine",
    role := Role.agent, isActive := true }

/-- A concrete stored user whose plainPassword predates any update. -/
def userOld : User :=
  { id := 4, username := "x", password := "hashed:oldplain",
    plainPassword := some "oldplain", fullName := "X", role := Role.agent,
    permissions := none, isActive := true }

/-- 2024-01-01T10:00:00Z in epoch ms. -/
def tW1 : Int := 1704103200000

/-- 2024-01-01T23:00:00Z in epoch ms. -/
def tW2 : Int := 1704150000000

/-- 2024-01-08T05:00:00Z in epoch ms. -/
def tW3 : Int := 1704690000000

/-- A minimal record row for the aggregation examples. -/
def mkRecEx (i cb : Int) (t : Option Int) : RecordItem :=
  { id := i, collectedBy := cb, recordTitle := "", landlordName := "",
    town := "", area := "", customFields := [], isSynced := false,
    createdAt := t, updatedAt := none }

/-- A record collected by the admin user (`collectedBy = 1`). -/
def recByAdmin : RecordItem :=
  mkRecEx 1 1 (some tW1)

/-- The select-typed custom column of the specification's example. -/
def roofTypeColumn : CustomColumn :=
  { id := 1, name := "Roof Type", fieldType := FieldType.select,
    isRequired := false, options := some ["Tile", "Metal"],
    isActive := true }

/-- C1: effectivePermissions, realized as hasPermission evaluated at each
permission: every permission of the fixed set is granted to an admin
regardless of the stored map; a secondary_admin is granted exactly the
permissions mapped to true (absent keys and a null map act as false, never
as an error); an agent is granted none. -/
theorem effectivePermissions_by_role (u : User) (p : Permission) :
    p ∈ ALL_PERMISSIONS ∧
    (u.role = Role.admin → hasPermission ⟨some u⟩ p = true) ∧
    (u.role = Role.secondary_admin →
      (hasPermission ⟨some u⟩ p = true ↔
        permLookup u.permissions p = some true)) ∧
    (u.role = Role.agent → hasPermission ⟨some u⟩ p = false) := by
  refine ⟨?_, ?_, ?_, ?_⟩
  · cases p <;> simp [ALL_PERMISSIONS]
  · intro h
    simp [hasPermission, h]
  · intro h
    simp [hasPermission, h]
  · intro h
    simp [hasPermission, h]

/-- C1 witness: concrete evaluations through the theorem. -/
theorem effectivePermissions_by_role_witness :
    hasPermission ⟨some adminEx⟩ Permission.deleteRecords = true ∧
    hasPermission ⟨some agentEx⟩ Permission.viewRecords = false :=
  ⟨(effectivePermissions_by_role adminEx Permission.deleteRecords).2.1 rfl,
   (effectivePermissions_by_role agentEx Permission.viewRecords).2.2.2 rfl⟩

/-- C2: the three secondary-admin management routes deny exactly the
non-admin callers; being an admin is being authenticated with role admin,
and no secondary_admin actor is one, whatever its permissions map says. -/
theorem secondary_admin_management_admin_only (hash : String → String)
    (req : Request) (usersDb : List User) (cb : Option InsertUser)
    (ub : Option UpdateUserRequest) (id newId : Int) :
    (isDenied (listSecondaryAdminsRoute req usersDb) = !(isAdmin req)) ∧
    (isDenied (createSecondaryAdminRoute hash req usersDb cb newId) =
      !(isAdmin req)) ∧
    (isDenied (updateSecondaryAdminRoute hash req usersDb id ub) =
      !(isAdmin req)) ∧
    (isAdmin req = true ↔ ∃ u, req.user = some u ∧ u.role = Role.admin) ∧
    (∀ u : User, u.role = Role.secondary_admin →
      isAdmin ⟨some u⟩ = false) := by
  refine ⟨?_, ?_, ?_, ?_, ?_⟩
  · cases h : isAdmin req <;>
      simp [listSecondaryAdminsRoute, h, isDenied]
  · cases h : isAdmin req
    · simp [createSecondaryAdminRoute, h, isDenied]
    · cases cb with
      | none => simp [createSecondaryAdminRoute, h, isDenied]
      | some input =>
        cases hu : getUserByUsername usersDb input.username <;>
          simp [createSecondaryAdminRoute, h, hu, isDenied]
  · cases h : isAdmin req
    · simp [updateSecondaryAdminRoute, h, isDenied]
    · cases ub <;> simp [updateSecondaryAdminRoute, h, isDenied]
  · cases hu : req.user with
    | none => simp [isAdmin, isAuthenticated, hu]
    | some u =>
      simp [isAdmin, isAuthenticated, hu]
  · intro u h
    simp [isAdmin, isAuthenticated, h]

/-- C2 witness: a secondary admin holding every permission is still denied
by the list route. -/
theorem secondary_admin_management_admin_only_witness :
    isDenied (listSecondaryAdminsRoute ⟨some secAllPerms⟩ []) =
      !(isAdmin ⟨some secAllPerms⟩) ∧
    isAdmin ⟨some secAllPerms⟩ = false :=
  ⟨(secondary_admin_management_admin_only hashEx ⟨some secAllPerms⟩ [] none
      none 0 0).1,
   (secondary_admin_management_admin_only hashEx ⟨some secAllPerms⟩ [] none
      none 0 0).2.2.2.2 secAllPerms rfl⟩

/-- C3 counterexample: an admin (who holds addRecords) supplying
`collectedBy = 0` in the body gets the record attributed to themselves (id
1), not to the supplied value 0, because the override is gated on JS
truthiness of `req.body.collectedBy`. -/
theorem createRecord_zero_collectedBy_counterexample :
    createRecordRoute ⟨some adminEx⟩
        { rawCollectedBy := some 0, input := some inputEx } 10 =
      RouteResult.ok 201 (createRecord 10 1 inputEx) ∧
    (1 : Int) ≠ 0 := by
  constructor
  · decide
  · decide

/-- C3 (amended): an agent's created record is always attributed to the
agent itself, never to a body-supplied value; an admin or secondary_admin
holding addRecords who supplies a nonzero `collectedBy` gets the record
attributed to the supplied value. -/
theorem createRecord_collectedBy_attribution (u : User) (inp : RecordInput)
    (raw : Option Int) (newId : Int) :
    (u.role = Role.agent →
      createRecordRoute ⟨some u⟩ { rawCollectedBy := raw, input := some inp }
          newId =
        RouteResult.ok 201 (createRecord newId u.id inp)) ∧
    (∀ v : Int, (u.role = Role.admin ∨ u.role = Role.secondary_admin) →
      hasPermission ⟨some u⟩ Permission.addRecords = true →
      raw = some v → v ≠ 0 →
      createRecordRoute ⟨some u⟩ { rawCollectedBy := raw, input := some inp }
          newId =
        RouteResult.ok 201 (createRecord newId v inp)) := by
  constructor
  · intro h
    simp [createRecordRoute, h, isAdminOrSecondary, isAuthenticated]
  · intro v hrole hperm hraw hv
    subst hraw
    rcases hrole with h | h <;>
      simp [createRecordRoute, h, hperm, isAdminOrSecondary, isAuthenticated,
        truthyNum, hv]

/-- C3 witness: concrete agent and admin creations through the theorem. -/
theorem createRecord_collectedBy_attribution_witness :
    createRecordRoute ⟨some agentEx⟩
        { rawCollectedBy := some 99, input := some inputEx } 11 =
      RouteResult.ok 201 (createRecord 11 agentEx.id inputEx) ∧
    createRecordRoute ⟨some adminEx⟩
        { rawCollectedBy := some 3, input := some inputEx } 12 =
      RouteResult.ok 201 (createRecord 12 3 inputEx) :=
  ⟨(createRecord_collectedBy_attribution agentEx inputEx (some 99) 11).1 rfl,
   (createRecord_collectedBy_attribution adminEx inputEx (some 3) 12).2 3
     (Or.inl rfl) (by decide) rfl (by decide)⟩

/-- One bump raises the total of the counts by exactly one. -/
theorem sum_bump {K : Type} [DecidableEq K] (k : K) (m : List (K × Nat)) :
    ((bump k m).map Prod.snd).sum = (m.map Prod.snd).sum + 1 := by
  induction m with
  | nil => simp [bump]
  | cons e rest ih =>
    obtain ⟨k2, n⟩ := e
    by_cases h : k2 = k <;> simp [bump, h, ih] <;> omega

/-- Folding bumps over a list raises the total of the counts by the list's
length. -/
theorem sum_foldl_bump {K α : Type} [DecidableEq K] (key : α → K)
    (l : List α) (acc : List (K × Nat)) :
    ((l.foldl (fun a x => bump (key x) a) acc).map Prod.snd).sum =
      (acc.map Prod.snd).sum + l.length := by
  induction l generalizing acc with
  | nil => simp
  | cons x xs ih =>
    simp only [List.foldl_cons, ih, sum_bump, List.length_cons]
    omega

/-- C4: the totalRecords of getStats is the size of the whole record
collection (getStats takes no filters and scans every row), and it equals
the sum of the per-agent counts. -/
theorem stats_total_is_sum_of_perAgent (recordsDb : List RecordItem)
    (usersDb : List User) (period : Period) :
    (getStats recordsDb usersDb period).totalRecords = recordsDb.length ∧
    ((getStats recordsDb usersDb period).recordsPerAgent.map
        AgentStat.count).sum =
      (getStats recordsDb usersDb period).totalRecords := by
  constructor
  · rfl
  · have h := sum_foldl_bump (fun r : RecordItem => r.collectedBy)
      recordsDb []
    simp only [getStats, agentCountsOf, List.map_map]
    simp only [agentCountsOf] at h
    simpa using h

/-- C5: with period week, the three example records created at
2024-01-01T10:00Z, 2024-01-01T23:00Z and 2024-01-08T05:00Z yield exactly two
buckets with counts [2, 1] sorted ascending, the first two records keyed by
"W " plus the Sunday (2023-12-31) preceding 2024-01-01; the conjuncts also
certify the timestamps' UTC dates and times and that the week key's date is
a Sunday (day-of-week 0) one day before 2024-01-01. -/
theorem stats_week_bucketing_example :
    (getStats [mkRecEx 1 7 (some tW1), mkRecEx 2 7 (some tW2),
        mkRecEx 3 8 (some tW3)] [] Period.week).recordsByPeriod =
      [{ date := "W 2023-12-31", count := 2 },
       { date := "W 2024-01-07", count := 1 }] ∧
    dateKeyOf Period.day tW1 = "2024-01-01" ∧
    dateKeyOf Period.day tW2 = "2024-01-01" ∧
    dateKeyOf Period.day tW3 = "2024-01-08" ∧
    tW1 = msToDay tW1 * msPerDay + 10 * 3600000 ∧
    tW2 = msToDay tW2 * msPerDay + 23 * 3600000 ∧
    tW3 = msToDay tW3 * msPerDay + 5 * 3600000 ∧
    dayOfWeek (msToDay tW1 - dayOfWeek (msToDay tW1)) = 0 ∧
    isoDateOfDay (msToDay tW1 - dayOfWeek (msToDay tW1)) = "2023-12-31" ∧
    msToDay tW1 - dayOfWeek (msToDay tW1) + 1 = msToDay tW1 ∧
    dateKeyOf Period.week tW1 = "W 2023-12-31" ∧
    dateKeyOf Period.week tW2 = "W 2023-12-31" ∧
    dateKeyOf Period.week tW3 = "W 2024-01-07" := by
  decide

/-- C6: each present filter of getRecords is an independent conjunct and an
absent filter imposes no constraint, so filtering by town and then filtering
that result by agentId yields the same records (as a multiset, hence as a
set) as one filtering with both present; the empty filter configuration
matches every record. -/
theorem filters_compose_by_and (recordsDb : List RecordItem) (t : String)
    (a : Int) :
    (getRecords (getRecords recordsDb { town := some t })
        { agentId := some a }).Perm
      (getRecords recordsDb { town := some t, agentId := some a }) ∧
    (∀ r : RecordItem, matchesFilters {} r = true) := by
  constructor
  · have hpt : ∀ r : RecordItem,
        (matchesFilters { agentId := some a } r &&
          matchesFilters { town := some t } r) =
          matchesFilters { town := some t, agentId := some a } r := by
      intro r
      simp only [matchesFilters, condAgentId, condSearch, condStartDate,
        condEndDate, condTown, condArea, truthyNum, truthyStr, Option.getD_some]
      cases hc : decide (a ≠ 0) <;> cases ht : decide (t ≠ "") <;> simp
    have h1 := List.perm_insertionSort
      (fun x y : RecordItem => createdDescLe x y = true)
      ((getRecords recordsDb { town := some t }).filter
        (matchesFilters { agentId := some a }))
    have h2 := (List.perm_insertionSort
      (fun x y : RecordItem => createdDescLe x y = true)
      (recordsDb.filter (matchesFilters { town := some t }))).filter
      (matchesFilters { agentId := some a })
    have h3 := List.perm_insertionSort
      (fun x y : RecordItem => createdDescLe x y = true)
      (recordsDb.filter
        (matchesFilters { town := some t, agentId := some a }))
    have h4 : (recordsDb.filter (matchesFilters { town := some t })).filter
        (matchesFilters { agentId := some a }) =
        recordsDb.filter
          (matchesFilters { town := some t, agentId := some a }) := by
      rw [List.filter_filter]
      exact List.filter_congr (fun r _ => hpt r)
    have h5 : ((recordsDb.filter
        (matchesFilters { town := some t })).filter
          (matchesFilters { agentId := some a })).Perm
        (getRecords recordsDb { town := some t, agentId := some a }) := by
      rw [h4]
      exact h3.symm
    exact h1.trans (h2.trans h5)
  · intro r
    simp [matchesFilters, condAgentId, condSearch, condStartDate,
      condEndDate, condTown, condArea, truthyNum, truthyStr]

/-- Reading a counts map after a bump: the bumped key reads one more than
before (zero when previously absent); other keys are unchanged. -/
theorem lookupCount_bump {K : Type} [DecidableEq K] (j k : K)
    (m : List (K × Nat)) :
    lookupCount j (bump k m) =
      if j = k then some ((lookupCount j m).getD 0 + 1)
      else lookupCount j m := by
  induction m with
  | nil =>
    by_cases h : j = k
    · subst h
      simp [bump, lookupCount]
    · have h2 : ¬(k = j) := fun he => h he.symm
      simp [bump, lookupCount, h, h2]
  | cons e rest ih =>
    obtain ⟨k2, n⟩ := e
    by_cases h1 : k2 = k
    · subst h1
      by_cases h2 : j = k2
      · subst h2
        simp [bump, lookupCount]
      · have h3 : ¬(k2 = j) := fun he => h2 he.symm
        simp [bump, lookupCount, h2, h3]
    · by_cases h2 : k2 = j
      · subst h2
        simp [bump, lookupCount, h1]
      · simp [bump, lookupCount, h1, h2, ih]

/-- The keys after a bump: unchanged when the key was present, appended
otherwise. -/
theorem keys_bump {K : Type} [DecidableEq K] (k : K) (m : List (K × Nat)) :
    (bump k m).map Prod.fst =
      if k ∈ m.map Prod.fst then m.map Prod.fst
      else m.map Prod.fst ++ [k] := by
  induction m with
  | nil => simp [bump]
  | cons e rest ih =>
    obtain ⟨k2, n⟩ := e
    by_cases h1 : k2 = k
    · subst h1
      simp [bump]
    · have h2 : ¬(k = k2) := fun he => h1 he.symm
      by_cases h3 : k ∈ rest.map Prod.fst <;>
        simp [bump, h1, h2, h3, ih]

/-- A bump preserves distinctness of the keys. -/
theorem nodup_keys_bump {K : Type} [DecidableEq K] (k : K)
    (m : List (K × Nat)) (h : (m.map Prod.fst).Nodup) :
    ((bump k m).map Prod.fst).Nodup := by
  rw [keys_bump]
  by_cases hk : k ∈ m.map Prod.fst
  · simpa [hk] using h
  · rw [if_neg hk, List.nodup_append]
    refine ⟨h, List.nodup_singleton k, ?_⟩
    intro a ha hak
    rw [List.mem_singleton] at hak
    exact hk (hak ▸ ha)

/-- The counts fold keeps keys distinct. -/
theorem nodup_keys_foldl_bump {K α : Type} [DecidableEq K] (key : α → K)
    (l : List α) (acc : List (K × Nat)) (h : (acc.map Prod.fst).Nodup) :
    ((l.foldl (fun a x => bump (key x) a) acc).map Prod.fst).Nodup := by
  induction l generalizing acc with
  | nil => simpa using h
  | cons x xs ih =>
    simp only [List.foldl_cons]
    exact ih (bump (key x) acc) (nodup_keys_bump (key x) acc h)

/-- Reading the counts fold: the bumps add the number of processed elements
with the read key to whatever the accumulator held (a key never seen and
absent from the accumulator stays absent). -/
theorem lookupCount_foldl_bump {K α : Type} [DecidableEq K] (key : α → K)
    (j : K) (l : List α) (acc : List (K × Nat)) :
    lookupCount j (l.foldl (fun a x => bump (key x) a) acc) =
      match lookupCount j acc with
      | some n => some (n + l.countP (fun x => decide (key x = j)))
      | none =>
        if l.countP (fun x => decide (key x = j)) = 0 then none
        else some (l.countP (fun x => decide (key x = j))) := by
  induction l generalizing acc with
  | nil => cases h : lookupCount j acc <;> simp [h]
  | cons x xs ih =>
    simp only [List.foldl_cons, ih, lookupCount_bump, List.countP_cons]
    by_cases hx : j = key x
    · subst hx
      cases h : lookupCount (key x) acc <;> simp [h] <;> omega
    · have h2 : ¬(key x = j) := fun he => hx he.symm
      cases h : lookupCount j acc <;> simp [hx, h2, h]

/-- A key is absent from a counts map iff its read yields nothing. -/
theorem lookupCount_eq_none_iff {K : Type} [DecidableEq K] (j : K)
    (m : List (K × Nat)) :
    lookupCount j m = none ↔ j ∉ m.map Prod.fst := by
  induction m with
  | nil => simp [lookupCount]
  | cons e rest ih =>
    obtain ⟨k2, n⟩ := e
    by_cases h : k2 = j
    · subst h
      simp [lookupCount]
    · have h2 : ¬(j = k2) := fun he => h he.symm
      simp [lookupCount, h, h2, ih]

/-- With distinct keys, every entry is read back exactly. -/
theorem lookupCount_of_mem_nodup {K : Type} [DecidableEq K] (j : K) (n : Nat)
    (m : List (K × Nat)) (hd : (m.map Prod.fst).Nodup)
    (hm : (j, n) ∈ m) :
    lookupCount j m = some n := by
  induction m with
  | nil => simp at hm
  | cons e rest ih =>
    obtain ⟨k2, n2⟩ := e
    simp only [List.map_cons, List.nodup_cons] at hd
    rcases List.mem_cons.mp hm with h | h
    · injection h with hj hn
      subst hj
      subst hn
      simp [lookupCount]
    · have hk2 : ¬(k2 = j) := by
        intro he
        refine hd.1 ?_
        rw [he]
        exact List.mem_map.mpr ⟨(j, n), h, rfl⟩
      simp [lookupCount, hk2, ih hd.2 h]

/-- The agent counts of getStats read back as the countP of the records with
the given collectedBy. -/
theorem lookupCount_agentCounts (recordsDb : List RecordItem) (j : Int) :
    lookupCount j (agentCountsOf recordsDb) =
      if recordsDb.countP (fun r => decide (r.collectedBy = j)) = 0 then none
      else some (recordsDb.countP (fun r => decide (r.collectedBy = j))) := by
  have h := lookupCount_foldl_bump (fun r : RecordItem => r.collectedBy) j
    recordsDb []
  simpa [agentCountsOf, lookupCount] using h

/-- C7 counterexample: a record collected by the admin user, who exists in
the users table, is labelled with the synthetic "Agent #1": the display-name
map of getStats is built from role-agent users only, so the synthetic label
is not used only when the actor no longer exists. -/
theorem perAgent_synthetic_label_counterexample :
    (∃ u ∈ [adminEx], u.id = (1 : Int) ∧ u.fullName = "System Administrator") ∧
    (getStats [recByAdmin] [adminEx] Period.day).recordsPerAgent =
      [{ agentId := 1, agentName := "Agent #1", count := 1 }] := by
  constructor
  · exact ⟨adminEx, by simp, rfl, rfl⟩
  · decide

/-- C7 (amended): recordsPerAgent has exactly one entry per distinct
collectedBy value present among the records, counting the records attributed
to it; the display name is resolved by lookup among the role-agent users
only, the synthetic label "Agent #<id>" being used whenever that lookup
yields no nonempty name (so also for records collected by an existing admin
or secondary_admin). -/
theorem perAgent_counts_and_names (recordsDb : List RecordItem)
    (usersDb : List User) (period : Period) :
    ((getStats recordsDb usersDb period).recordsPerAgent.map
        AgentStat.agentId).Nodup ∧
    (∀ a : Int,
      (∃ e ∈ (getStats recordsDb usersDb period).recordsPerAgent,
          e.agentId = a) ↔
        ∃ r ∈ recordsDb, r.collectedBy = a) ∧
    (∀ e ∈ (getStats recordsDb usersDb period).recordsPerAgent,
      e.count =
        recordsDb.countP (fun r => decide (r.collectedBy = e.agentId)) ∧
      e.agentName =
        orFallback (lookupAgentName (getAgents usersDb) e.agentId)
          ("Agent #" ++ toString e.agentId)) := by
  have hnodup : ((agentCountsOf recordsDb).map Prod.fst).Nodup := by
    have h := nodup_keys_foldl_bump (fun r : RecordItem => r.collectedBy)
      recordsDb [] (by simp)
    simpa [agentCountsOf] using h
  have hproj : (getStats recordsDb usersDb period).recordsPerAgent.map
      AgentStat.agentId = (agentCountsOf recordsDb).map Prod.fst := by
    simp [getStats, List.map_map, Function.comp]
  refine ⟨?_, ?_, ?_⟩
  · rw [hproj]
    exact hnodup
  · intro a
    constructor
    · rintro ⟨e, he, rfl⟩
      simp only [getStats] at he
      obtain ⟨⟨k, n⟩, hkn, rfl⟩ := List.mem_map.mp he
      have hk : lookupCount k (agentCountsOf recordsDb) ≠ none := by
        rw [Ne, lookupCount_eq_none_iff]
        exact fun h => h (List.mem_map.mpr ⟨(k, n), hkn, rfl⟩)
      rw [lookupCount_agentCounts] at hk
      by_cases h0 :
          recordsDb.countP (fun r => decide (r.collectedBy = k)) = 0
      · rw [if_pos h0] at hk
        exact absurd rfl hk
      · have hpos : 0 <
            recordsDb.countP (fun r => decide (r.collectedBy = k)) :=
          Nat.pos_of_ne_zero h0
        obtain ⟨r, hr, hrk⟩ := List.countP_pos_iff.mp hpos
        exact ⟨r, hr, of_decide_eq_true hrk⟩
    · rintro ⟨r, hr, rfl⟩
      have hpos : 0 < recordsDb.countP
          (fun x => decide (x.collectedBy = r.collectedBy)) := by
        apply List.countP_pos_iff.mpr
        exact ⟨r, hr, by simp⟩
      have hk : lookupCount r.collectedBy (agentCountsOf recordsDb) ≠
          none := by
        rw [lookupCount_agentCounts,
          if_neg (Nat.pos_iff_ne_zero.mp hpos)]
        simp
      rw [Ne, lookupCount_eq_none_iff] at hk
      push_neg at hk
      obtain ⟨⟨k, n⟩, hkn, hfst⟩ := List.mem_map.mp hk
      exact ⟨_, List.mem_map.mpr ⟨(k, n), hkn, rfl⟩, hfst⟩
  · intro e he
    simp only [getStats] at he
    obtain ⟨⟨k, n⟩, hkn, rfl⟩ := List.mem_map.mp he
    constructor
    · have hn : lookupCount k (agentCountsOf recordsDb) = some n :=
        lookupCount_of_mem_nodup k n _ hnodup hkn
      rw [lookupCount_agentCounts] at hn
      by_cases h0 :
          recordsDb.countP (fun r => decide (r.collectedBy = k)) = 0
      · rw [if_pos h0] at hn
        exact absurd hn (by simp)
      · rw [if_neg h0] at hn
        injection hn with hn2
        exact hn2.symm
    · rfl

/-- C7 witness: the records collected by id 1 produce an entry for id 1. -/
theorem perAgent_counts_and_names_witness :
    ∃ e ∈ (getStats [recByAdmin] [adminEx] Period.day).recordsPerAgent,
      e.agentId = (1 : Int) :=
  ((perAgent_counts_and_names [recByAdmin] [adminEx] Period.day).2.1 1).mpr
    ⟨recByAdmin, by simp, rfl⟩

/-- C8 counterexample: an authorized agents-update with an id matching no
user responds 200 with an empty payload, not with a NotFound outcome: the
agents route has no missing-row check. -/
theorem updateAgent_missing_id_counterexample :
    updateAgentRoute hashEx ⟨some adminEx⟩ [] 5 (some {}) =
      RouteResult.ok 200 none ∧
    isDenied (updateAgentRoute hashEx ⟨some adminEx⟩ [] 5 (some {})) =
      false := by
  constructor
  · decide
  · decide

/-- C8 (amended): an authorized records-update whose id matches no record is
surfaced as NotFound (distinct from a permission denial and from success);
an authorized agents-update whose id matches no user instead responds 200
with an empty payload. -/
theorem missing_id_update_outcomes (hash : String → String) (req : Request)
    (recordsDb : List RecordItem) (usersDb : List User) (id : Int)
    (rupd : RecordUpdate) (uupd : UpdateUserRequest) (now : Int) :
    (hasPermission req Permission.editRecords = true →
      (∀ r ∈ recordsDb, r.id ≠ id) →
      updateRecordRoute req recordsDb id (some rupd) now =
        RouteResult.notFound "Record not found") ∧
    (hasPermission req Permission.editAgents = true →
      (∀ u ∈ usersDb, u.id ≠ id) →
      updateAgentRoute hash req usersDb id (some uupd) =
        RouteResult.ok 200 none) := by
  constructor
  · intro hperm hmiss
    cases hu : req.user with
    | none => simp [hasPermission, hu] at hperm
    | some u =>
      have hfind : recordsDb.find? (fun r => r.id == id) = none :=
        List.find?_eq_none.mpr (fun r hr => by
          simpa using hmiss r hr)
      simp [updateRecordRoute, hu, hperm, updateRecord, hfind]
  · intro hperm hmiss
    have hfind : usersDb.find? (fun u => u.id == id) = none :=
      List.find?_eq_none.mpr (fun u hu => by
        simpa using hmiss u hu)
    simp [updateAgentRoute, hperm, updateUser, hfind]

/-- C8 witness: concrete authorized updates on empty tables through the
theorem. -/
theorem missing_id_update_outcomes_witness :
    updateRecordRoute ⟨some adminEx⟩ [] 7 (some {}) 0 =
      RouteResult.notFound "Record not found" ∧
    updateAgentRoute hashEx ⟨some adminEx⟩ [] 7 (some {}) =
      RouteResult.ok 200 none :=
  ⟨(missing_id_update_outcomes hashEx ⟨some adminEx⟩ [] [] 7 {} {} 0).1
      (by decide) (by simp),
   (missing_id_update_outcomes hashEx ⟨some adminEx⟩ [] [] 7 {} {} 0).2
      (by decide) (by simp)⟩

/-- C9: a present value of a select-typed custom column passes validation
exactly when it belongs to the column's options set; otherwise the column is
reported as a validation failure. -/
theorem select_value_checked_against_options (c : CustomColumn) (v : String)
    (hsel : c.fieldType = FieldType.select) :
    ((c.options.getD []).contains v = true →
      validateCustomFields [(c.name, v)] [c] = []) ∧
    ((c.options.getD []).contains v = false →
      validateCustomFields [(c.name, v)] [c] = [c.name]) := by
  constructor
  · intro h
    simp at h
    simp [validateCustomFields, fieldValue, List.find?, hsel, h]
  · intro h
    simp at h
    simp [validateCustomFields, fieldValue, List.find?, hsel, h]

/-- C9 witness: the Roof Type example — "Thatch" is reported, "Tile"
passes. -/
theorem select_value_checked_against_options_witness :
    validateCustomFields [("Roof Type", "Thatch")] [roofTypeColumn] =
      ["Roof Type"] ∧
    validateCustomFields [("Roof Type", "Tile")] [roofTypeColumn] = [] :=
  ⟨(select_value_checked_against_options roofTypeColumn "Thatch" rfl).2
      (by decide),
   (select_value_checked_against_options roofTypeColumn "Tile" rfl).1
      (by decide)⟩

/-- C10 counterexample: an update that includes the (falsy) empty-string
password leaves plainPassword at its old value (and writes the raw empty
string into the password column), so not every password-updating call stores
its plaintext. -/
theorem updateUser_empty_password_counterexample :
    updateUser hashEx [userOld] 4 { password := some "" } =
      some { userOld with password := "" } ∧
    (updateUser hashEx [userOld] 4
        { password := some "" }).map User.plainPassword =
      some (some "oldplain") := by
  constructor
  · decide
  · decide

/-- C10 (amended): every created user's plainPassword is the verbatim
plaintext of the supplied password, and every update that includes a
nonempty password stores that plaintext in the persisted row's
plainPassword. -/
theorem plainPassword_stores_plaintext (hash : String → String)
    (newId : Int) (ins : InsertUser) (usersDb : List User) (id : Int)
    (upd : UpdateUserRequest) (p : String) :
    ((createUser hash newId ins).plainPassword = some ins.password) ∧
    (upd.password = some p → p ≠ "" →
      ∀ u2, updateUser hash usersDb id upd = some u2 →
        u2.plainPassword = some p) := by
  constructor
  · rfl
  · intro hp hne u2 hu2
    simp only [updateUser] at hu2
    cases hfind : usersDb.find? (fun u => u.id == id) with
    | none =>
      rw [hfind] at hu2
      simp at hu2
    | some u =>
      rw [hfind] at hu2
      have he : u2 = updateUserRow hash upd u := by
        simpa [eq_comm] using hu2
      subst he
      simp [updateUserRow, hp, hne]

/-- C10 witness: a concrete creation and a concrete nonempty-password update
through the theorem. -/
theorem plainPassword_stores_plaintext_witness :
    (createUser hashEx 21 insEx).plainPassword = some "pw1" ∧
    ∀ u2, updateUser hashEx [userOld] 4 { password := some "newpw" } =
        some u2 → u2.plainPassword = some "newpw" :=
  ⟨(plainPassword_stores_plaintext hashEx 21 insEx [] 0 {} "").1,
   (plainPassword_stores_plaintext hashEx 21 insEx [userOld] 4
      { password := some "newpw" } "newpw").2 rfl (by decide)⟩

end Hive
